import Mathlib

/-!
Verification of the RGB-objects dataset module
(`py/manipulation/props/rgb_objects/rgb_object.py`).

The module partitions a catalog of object identifiers into
train/heldout/test subsets, samples identifier triplets under restriction
lists, resolves mesh file paths with a per-process cache, and computes
per-parameter min/max bounds over the catalog.

The raw per-object parameter catalog is provided by an external
collaborator (`rgb_object_names.RgbObjectsNames`); every definition that
depends on it is therefore parametrized by `params`, the list of raw
nicknames, and a concrete catalog modelled from the specification is used
to instantiate closed statements.

Python-specific behaviors are carried over explicitly: `sorted` is a
stable sort under code-point lexicographic string order, `if some_list:`
tests truthiness (both `None` and the empty list are falsy), `split` and
`startswith` operate on character sequences, and dictionary iteration
follows insertion order (dictionaries are modelled as association lists).
-/

/-- Code-point lexicographic comparison of character lists, the order
Python uses to compare strings. -/
def lexLe : List Char → List Char → Bool
  | [], _ => true
  | _ :: _, [] => false
  | a :: as, b :: bs =>
    if a.toNat < b.toNat then true
    else if a.toNat = b.toNat then lexLe as bs
    else false

/-- String comparison by code points, as in Python. -/
def strLe (a b : String) : Bool := lexLe a.toList b.toList

/-- The ordering relation underlying Python `sorted` on strings. -/
def strLeRel (a b : String) : Prop := strLe a b = true

instance : DecidableRel strLeRel := fun a b => instDecidableEqBool (strLe a b) true

theorem lexLe_total (as bs : List Char) : lexLe as bs = true ∨ lexLe bs as = true := by
  induction as generalizing bs with
  | nil => left; simp [lexLe]
  | cons a as ih =>
    cases bs with
    | nil => right; simp [lexLe]
    | cons b bs =>
      rcases Nat.lt_trichotomy a.toNat b.toNat with h | h | h
      · left; simp [lexLe, h]
      · rcases ih bs with h2 | h2
        · left; simp [lexLe, h, h2]
        · right; simp [lexLe, h.symm, h2]
      · right; simp [lexLe, h]

theorem lexLe_trans (as bs cs : List Char) (h1 : lexLe as bs = true) (h2 : lexLe bs cs = true) :
    lexLe as cs = true := by
  induction as generalizing bs cs with
  | nil => simp [lexLe]
  | cons a as ih =>
    cases bs with
    | nil => simp [lexLe] at h1
    | cons b bs =>
      cases cs with
      | nil => simp [lexLe] at h2
      | cons c cs =>
        simp only [lexLe] at h1 h2 ⊢
        split at h1
        · rename_i hab
          split at h2
          · rename_i hbc
            simp [Nat.lt_trans hab hbc]
          · split at h2
            · rename_i hbc
              simp [hbc ▸ hab]
            · exact absurd h2 (by simp)
        · split at h1
          · rename_i hab heq
            split at h2
            · rename_i hbc
              simp [heq ▸ hbc]
            · split at h2
              · rename_i hbc
                have hac : a.toNat = c.toNat := heq.trans hbc
                simp [hac, ih bs cs h1 h2]
              · exact absurd h2 (by simp)
          · exact absurd h1 (by simp)

instance : IsTotal String strLeRel := ⟨fun a b => lexLe_total a.toList b.toList⟩

instance : IsTrans String strLeRel := ⟨fun a b c => lexLe_trans a.toList b.toList c.toList⟩

/-- Python `sorted` on a list of strings: a stable sort under code-point
lexicographic order. -/
def pySorted (l : List String) : List String := l.insertionSort strLeRel

theorem pySorted_sorted (l : List String) : List.Sorted strLeRel (pySorted l) :=
  List.sorted_insertionSort strLeRel l

theorem pySorted_mem (l : List String) (x : String) : x ∈ pySorted l ↔ x ∈ l :=
  (List.perm_insertionSort strLeRel l).mem_iff

/-- Python `s.startswith(p)` on strings, executed on character lists. -/
def pyStartsWith (s p : String) : Bool := p.toList.isPrefixOf s.toList

/-- `PropsVersion`: the enumeration of available RGB-object dataset
versions; it has exactly one member, `RGB_OBJECTS_V1`. -/
inductive PropsVersion where
  | RGB_OBJECTS_V1
deriving DecidableEq

/-- Short name `V1` used throughout the source. -/
def V1 : PropsVersion := PropsVersion.RGB_OBJECTS_V1

/-- The string Python produces when formatting the version enum member
into an error message. -/
def versionStr (v : PropsVersion) : String :=
  match v with
  | PropsVersion.RGB_OBJECTS_V1 => "PropsVersion.RGB_OBJECTS_V1"

/-- `VersionedSequence` (aliased `PropsSetType` in the source): a sequence
of object identifiers tagged with the dataset version. -/
structure PropsSetType where
  version : PropsVersion
  ids : List String
deriving DecidableEq

/-- The error outcomes of the module: `ValueError` for invalid arguments,
`KeyError` for a missing dictionary key, `StopIteration` for an empty
catalog, and the error `numpy.random.choice` raises on an empty list. -/
inductive RgbError where
  | invalidArgument (msg : String)
  | notFound (key : String)
  | keyError
  | emptyDataset
  | emptyChoice
deriving DecidableEq

/-- Modelled from the spec: the raw per-object parameter catalog is the
external collaborator `rgb_object_names.RgbObjectsNames(v1_3).nicknames`,
which is not part of the sources; only its nickname keys matter here.
Per the specification (section 4.1 step 1) and the module documentation,
the nickname universe for the active version holds the seed object `s0`,
single-axis objects `<letter><axis>` for the interpolation letters
`r, d, f, e, g, h, x, l, b, m, y` over the axes `2, 3, 5, 6, 7, 8`, and
two-axis objects `<letter><axis-pair>` over the two-digit axis pairs. -/
def RGB_OBJECTS_PARAMS_modelled : List String :=
  "s0" ::
    ((["r", "d", "f", "e", "g", "h", "x", "l", "b", "m", "y"].map
        (fun v => ["2", "3", "5", "6", "7", "8"].map (fun a => v ++ a))).flatten
      ++ (["f", "e", "h", "x", "l", "m", "y", "r", "u", "v"].map
        (fun v =>
          ["23", "25", "26", "35", "36", "37", "38", "56", "57", "58", "67"].map
            (fun a => v ++ a))).flatten)

/-- `_D_OBJECTS`: the identifiers of the raw catalog that start with the
letter `d`; they are excluded from the dataset. -/
def D_OBJECTS (params : List String) : List String :=
  params.filter (fun x => pyStartsWith x "d")

/-- `RGB_OBJECTS_TEST_SET`: the 13 reserved test identifiers, sorted. -/
def RGB_OBJECTS_TEST_SET : List String :=
  pySorted
    ["s0", "r2", "r3", "r5", "r6", "b2", "b3", "b5", "b6", "g2", "g3", "g5", "g6"]

/-- `RGB_OBJECTS_FULL_SET = list((set(params) - set(_D_OBJECTS)).union(set(TEST)))`.
Python set algebra is modelled by filtering and deduplication; only
membership is meaningful for the resulting list, as the Python set
iteration order is arbitrary. -/
def RGB_OBJECTS_FULL_SET (params : List String) : List String :=
  ((params.filter (fun x => ¬ x ∈ D_OBJECTS params)) ++ RGB_OBJECTS_TEST_SET).dedup

/-- `_SINGLE_DEFORMATION_OBJECTS`: identifiers of the full set whose
string length is exactly 2. -/
def SINGLE_DEFORMATION_OBJECTS (params : List String) : List String :=
  (RGB_OBJECTS_FULL_SET params).filter (fun x => x.length = 2)

/-- `RGB_OBJECTS_HELDOUT_SET = sorted(_SINGLE_DEFORMATION_OBJECTS)`. -/
def RGB_OBJECTS_HELDOUT_SET (params : List String) : List String :=
  pySorted (SINGLE_DEFORMATION_OBJECTS params)

/-- `RGB_OBJECTS_TRAIN_SET = list(set(FULL) - set(HELDOUT) - set(_D_OBJECTS) - set(TEST))`. -/
def RGB_OBJECTS_TRAIN_SET (params : List String) : List String :=
  (RGB_OBJECTS_FULL_SET params).filter
    (fun x =>
      ¬ x ∈ RGB_OBJECTS_HELDOUT_SET params ∧ ¬ x ∈ D_OBJECTS params ∧
        ¬ x ∈ RGB_OBJECTS_TEST_SET)

theorem mem_D_OBJECTS (params : List String) (x : String) :
    x ∈ D_OBJECTS params ↔ x ∈ params ∧ pyStartsWith x "d" = true := by
  simp [D_OBJECTS, List.mem_filter]

theorem mem_FULL_SET (params : List String) (x : String) :
    x ∈ RGB_OBJECTS_FULL_SET params ↔
      (x ∈ params ∧ ¬ x ∈ D_OBJECTS params) ∨ x ∈ RGB_OBJECTS_TEST_SET := by
  simp [RGB_OBJECTS_FULL_SET, List.mem_dedup, List.mem_append, List.mem_filter]

theorem mem_HELDOUT_SET (params : List String) (x : String) :
    x ∈ RGB_OBJECTS_HELDOUT_SET params ↔
      x ∈ RGB_OBJECTS_FULL_SET params ∧ x.length = 2 := by
  simp [RGB_OBJECTS_HELDOUT_SET, pySorted_mem, SINGLE_DEFORMATION_OBJECTS, List.mem_filter]

theorem mem_TRAIN_SET (params : List String) (x : String) :
    x ∈ RGB_OBJECTS_TRAIN_SET params ↔
      x ∈ RGB_OBJECTS_FULL_SET params ∧ ¬ x ∈ RGB_OBJECTS_HELDOUT_SET params ∧
        ¬ x ∈ D_OBJECTS params ∧ ¬ x ∈ RGB_OBJECTS_TEST_SET := by
  simp [RGB_OBJECTS_TRAIN_SET, List.mem_filter, and_assoc]

theorem test_set_lengths (x : String) (hx : x ∈ RGB_OBJECTS_TEST_SET) :
    x.length = 2 ∧ pyStartsWith x "d" = false := by
  fin_cases hx <;> exact ⟨by decide, by decide⟩

theorem test_subset_full (params : List String) (x : String)
    (hx : x ∈ RGB_OBJECTS_TEST_SET) : x ∈ RGB_OBJECTS_FULL_SET params :=
  (mem_FULL_SET params x).mpr (Or.inr hx)

theorem full_set_ne_nil (params : List String) : RGB_OBJECTS_FULL_SET params ≠ [] :=
  List.ne_nil_of_mem (test_subset_full params "s0" (by decide))

/-- The interpolation letters `_DEFORMATION_VALUES` used in object naming. -/
def DEFORMATION_VALUES : List String :=
  ["f", "e", "h", "x", "l", "m", "y", "r", "u", "v"]

/-- `DEFORMATION_HELDOUT_AXES`. -/
def DEFORMATION_HELDOUT_AXES : List String := ["2", "3", "5", "6"]

/-- `DEFORMATION_TRAIN_AXES`. -/
def DEFORMATION_TRAIN_AXES : List String :=
  ["23", "25", "26", "35", "36", "37", "38", "56", "57", "58", "67"]

/-- `DEFORMATION_AXES = DEFORMATION_TRAIN_AXES + DEFORMATION_HELDOUT_AXES`. -/
def DEFORMATION_AXES : List String := DEFORMATION_TRAIN_AXES ++ DEFORMATION_HELDOUT_AXES

/-- `_define_deformation_axes` builds, in axis order, the dictionary from
each deformation axis to the identifiers `<value><axis>` present in the
full set, preserving the deformation-value order. -/
def RGB_OBJECTS_DIM (params : List String) : List (String × List String) :=
  DEFORMATION_AXES.map (fun a =>
    (a, (DEFORMATION_VALUES.map (fun v => v ++ a)).filter
      (fun obj_id => obj_id ∈ RGB_OBJECTS_FULL_SET params)))

/-- Dictionary lookup in `RGB_OBJECTS_DIM` (raises for a missing key in
Python; every key used by the source is present). -/
def dimLookup (params : List String) (a : String) : List String :=
  (((RGB_OBJECTS_DIM params).find? (fun p => p.1 = a)).map Prod.snd).getD []

/-- `PROP_FEATURES[version].ids`: the identifier list of the per-version
dataset descriptor, which is the full set for `RGB_OBJECTS_V1`. -/
def PROP_FEATURES_ids (params : List String) (v : PropsVersion) : List String :=
  match v with
  | PropsVersion.RGB_OBJECTS_V1 => RGB_OBJECTS_FULL_SET params

/-- `numpy.random.choice(l)`: a uniform draw from `l`, modelled by the
index `k` supplied by the random source and reduced modulo the list
length; the draw fails on an empty list exactly as `np.random.choice`
raises there. -/
def npChoice (l : List String) (k : Nat) : Option String := l.get? (k % l.length)

/-- Python truthiness of an optional list argument: `None` and the empty
list are falsy, a non-empty list is truthy. -/
def pyTruthy (o : Option (List String)) : Bool :=
  match o with
  | none => false
  | some l => !l.isEmpty

/-- The fallback `if not id_list_<channel>: id_list_<channel> = id_list`:
a falsy per-channel argument is replaced by the (already defaulted)
shared list. -/
def effectiveChannelList (idList : List String) (chan : Option (List String)) :
    List String :=
  if pyTruthy chan then chan.getD [] else idList

/-- The drawing stage of `random_triplet`: after the shared list has been
validated and defaulted to `idList`, one identifier is drawn per channel
from its effective restriction list. -/
def drawTriplet (rgb_version : PropsVersion) (kr kg kb : Nat) (idList : List String)
    (id_list_red id_list_green id_list_blue : Option (List String)) :
    Except RgbError PropsSetType :=
  match npChoice (effectiveChannelList idList id_list_red) kr,
      npChoice (effectiveChannelList idList id_list_green) kg,
      npChoice (effectiveChannelList idList id_list_blue) kb with
  | some r, some g, some b => Except.ok ⟨rgb_version, [r, g, b]⟩
  | _, _, _ => Except.error RgbError.emptyChoice

/-- `random_triplet(rgb_version, id_list, id_list_red, id_list_green, id_list_blue)`:
validates a truthy shared restriction list against the full identifier
set of the version (raising `ValueError` at the first offender, in
iteration order), falls back from falsy arguments (shared list defaults
to the full set, per-channel lists default to the shared list), and draws
one identifier per channel. The three random draws are supplied as
indices `kr`, `kg`, `kb`. -/
def random_triplet (params : List String) (rgb_version : PropsVersion)
    (kr kg kb : Nat)
    (id_list id_list_red id_list_green id_list_blue : Option (List String)) :
    Except RgbError PropsSetType :=
  let fullIds := PROP_FEATURES_ids params rgb_version
  if pyTruthy id_list then
    match (id_list.getD []).find? (fun object_id => ¬ object_id ∈ fullIds) with
    | some object_id =>
      Except.error (RgbError.invalidArgument
        ("id_list includes " ++ object_id ++ " which is not part of " ++
          versionStr rgb_version))
    | none =>
      drawTriplet rgb_version kr kg kb (id_list.getD [])
        id_list_red id_list_green id_list_blue
  else
    drawTriplet rgb_version kr kg kb fullIds
      id_list_red id_list_green id_list_blue

/-- `PROP_TRIPLETS_TEST`: the five predefined test triplets, an ordered
dictionary from key to versioned triplet. -/
def PROP_TRIPLETS_TEST : List (String × PropsSetType) :=
  [("rgb_test_triplet1", ⟨V1, ["r3", "s0", "b2"]⟩),
   ("rgb_test_triplet2", ⟨V1, ["r5", "g2", "b3"]⟩),
   ("rgb_test_triplet3", ⟨V1, ["r6", "g3", "b5"]⟩),
   ("rgb_test_triplet4", ⟨V1, ["s0", "g5", "b6"]⟩),
   ("rgb_test_triplet5", ⟨V1, ["r2", "g6", "s0"]⟩)]

/-- The key list `[s for s in PROP_TRIPLETS_TEST if s.startswith('rgb_test_triplet')]`
built inside `fixed_random_triplet`. -/
def fixedTripletKeys : List String :=
  (PROP_TRIPLETS_TEST.map Prod.fst).filter (fun s => pyStartsWith s "rgb_test_triplet")

/-- `fixed_random_triplet(rgb_version)`: for the single supported version,
uniformly chooses one of the predefined test-triplet keys (random draw
supplied as index `k`) and returns that dictionary entry verbatim. The
source raises `ValueError` for any other version; the version enumeration
has no other member, so that branch has no counterpart here. -/
def fixed_random_triplet (k : Nat) (rgb_version : PropsVersion) :
    Except RgbError PropsSetType :=
  match rgb_version with
  | PropsVersion.RGB_OBJECTS_V1 =>
    match npChoice fixedTripletKeys k with
    | some key =>
      match (PROP_TRIPLETS_TEST.find? (fun p => p.1 = key)).map Prod.snd with
      | some t => Except.ok t
      | none => Except.error (RgbError.notFound key)
    | none => Except.error RgbError.emptyChoice

/-- A value of the named dataset registry: either a literal predefined
triplet, or a zero-argument sampling callable. A callable is a
`functools.partial` of `random_triplet` (with the bound shared list and
bound blue-channel list recorded) or of `fixed_random_triplet`. -/
inductive RegistryEntry where
  | triplet (ps : PropsSetType)
  | randomSampler (id_list : Option (List String)) (id_list_blue : Option (List String))
  | fixedRandom
deriving DecidableEq

/-- `RANDOM_PROP_TRIPLETS_FUNCTIONS`: the three parametrized samplers of
the registry, in dictionary insertion order. -/
def RANDOM_PROP_TRIPLETS_FUNCTIONS (params : List String) : List (String × RegistryEntry) :=
  [("rgb_train_random",
      RegistryEntry.randomSampler (some (RGB_OBJECTS_TRAIN_SET params)) none),
   ("rgb_heldout_random",
      RegistryEntry.randomSampler (some (RGB_OBJECTS_HELDOUT_SET params)) none),
   ("rgb_test_random", RegistryEntry.fixedRandom)]

/-- `PROP_TRIPLETS`: the named dataset registry, merging the five literal
test triplets with the three parametrized samplers. -/
def PROP_TRIPLETS (params : List String) : List (String × RegistryEntry) :=
  (PROP_TRIPLETS_TEST.map (fun p => (p.1, RegistryEntry.triplet p.2)))
    ++ RANDOM_PROP_TRIPLETS_FUNCTIONS params

/-- `_define_blue_prop_triplets(base_str, id_list, axes)`: for each axis,
a callable equal to `random_triplet` with the blue-channel list bound to
the identifier list of that axis and the shared list bound to `id_list`.
The source defines this family but never inserts it into `PROP_TRIPLETS`. -/
def define_blue_prop_triplets (params : List String) (base_str : String)
    (id_list : Option (List String)) (axes : List String) :
    List (String × RegistryEntry) :=
  axes.map (fun a =>
    (base_str ++ a, RegistryEntry.randomSampler id_list (some (dimLookup params a))))

/-- Python `str.split(sep)` on a character sequence: the list of chunks
between occurrences of the separator (always non-empty; adjacent
separators yield empty chunks, as in Python). -/
def pySplit (sep : Char) : List Char → List (List Char)
  | [] => [[]]
  | c :: cs =>
    match pySplit sep cs with
    | [] => [[]]
    | h :: t => if c = sep then [] :: h :: t else (c :: h) :: t

/-- `_RGB_OBJECTS_ID_FROM_FILE_FUNC = lambda filename: filename.split('_')[0]`:
the first chunk of the filename split at underscores. -/
def RGB_OBJECTS_ID_FROM_FILE (filename : String) : String :=
  String.mk ((pySplit '_' filename.toList).headD [])

/-- The trailing component of a path (what `os.path.basename` keeps). -/
def dropDirComponents (l : List Char) : List Char :=
  (l.reverse.takeWhile (fun c => ¬ c = '/')).reverse

/-- Removal of the file extension: everything from the last dot on is
dropped when a dot is present. -/
def dropExtension (l : List Char) : List Char :=
  if l.contains '.' then ((l.reverse.dropWhile (fun c => ¬ c = '.')).drop 1).reverse
  else l

/-- The filename-to-identifier extraction as the specification words it:
the substring before the first underscore, with directory components and
the extension removed. Stated for comparison against
`RGB_OBJECTS_ID_FROM_FILE`, which embeds the source. -/
def specIdExtraction (filename : String) : String :=
  String.mk ((dropExtension (dropDirComponents filename.toList)).takeWhile
    (fun c => ¬ c = '_'))

/-- A per-object parameter record: an ordered mapping from parameter name
to numeric value. -/
abbrev ParamsRecord := List (String × Int)

/-- Reading `d[k]` from an ordered dictionary (the first entry with the
key; `none` models `KeyError`). -/
def recordLookup (d : ParamsRecord) (k : String) : Option Int :=
  (d.find? (fun p => p.1 = k)).map Prod.snd

/-- Writing `d[k] = v` for a key already present: every entry carrying the
key is updated in place, the key order is unchanged. -/
def recordSet (d : ParamsRecord) (k : String) (v : Int) : ParamsRecord :=
  d.map (fun p => if p.1 = k then (p.1, v) else p)

/-- One object record folded into the accumulator: for each parameter of
the record, in order, `acc[k] = op(acc[k], v)`; a key absent from the
accumulator is a `KeyError`, modelled by `none`. -/
def foldRecord (op : Int → Int → Int) (d : ParamsRecord) (r : ParamsRecord) :
    Option ParamsRecord :=
  r.foldl
    (fun acc kv =>
      acc.bind (fun dd =>
        match recordLookup dd kv.1 with
        | none => none
        | some old => some (recordSet dd kv.1 (op old kv.2))))
    (some d)

/-- `RgbObjectParameters.min_max`: starting from a copy of the first
object record, folds `min` (respectively `max`) of every object record of
the catalog into the accumulator; the empty catalog raises
(`StopIteration` at `next(iter(...))`). -/
def min_max (all_params : List (String × ParamsRecord)) :
    Except RgbError (ParamsRecord × ParamsRecord) :=
  match all_params with
  | [] => Except.error RgbError.emptyDataset
  | (_, rec0) :: _ =>
    let recs := all_params.map Prod.snd
    let mn := recs.foldl (fun acc r => acc.bind (fun d => foldRecord min d r)) (some rec0)
    let mx := recs.foldl (fun acc r => acc.bind (fun d => foldRecord max d r)) (some rec0)
    match mn, mx with
    | some a, some b => Except.ok (a, b)
    | _, _ => Except.error RgbError.keyError

/-- The mesh path cache of the process-wide `RgbDataset` singleton: one
optional entry per dataset version, `none` before the first scan. -/
abbrev DatasetCache := PropsVersion → Option (List String)

/-- The cache state right after `RgbDataset.__init__`. -/
def initDataset : DatasetCache := fun _ => none

/-- `RgbDataset.clear_cache`: every entry is reset to `none`. -/
def clear_cache (_cache : DatasetCache) : DatasetCache := fun _ => none

/-- Python truthiness test `not self._dataset_stl_paths[rgb_version]`:
both the unpopulated entry and an empty stored list are falsy. -/
def cacheFalsy (o : Option (List String)) : Bool :=
  match o with
  | none => true
  | some l => l.isEmpty

/-- `RgbDataset.__call__(rgb_version)`: when the entry is falsy the
directory scan `_get_all_meshes` (supplied as the collaborator `scan`) is
performed and its result stored, otherwise the stored list is returned.
The third component counts the directory scans performed by this call. -/
def datasetCall (scan : PropsVersion → List String) (cache : DatasetCache)
    (v : PropsVersion) : List String × DatasetCache × Nat :=
  if cacheFalsy (cache v) then
    let paths := scan v
    (paths, fun w => if w = v then some paths else cache w, 1)
  else
    ((cache v).getD [], cache, 0)

theorem heldout_not_d (params : List String) (x : String)
    (hx : x ∈ RGB_OBJECTS_HELDOUT_SET params) : ¬ x ∈ D_OBJECTS params := by
  intro hd
  have hfull := ((mem_HELDOUT_SET params x).mp hx).1
  rcases (mem_FULL_SET params x).mp hfull with ⟨_, hnd⟩ | ht
  · exact hnd hd
  · have := (test_set_lengths x ht).2
    have := ((mem_D_OBJECTS params x).mp hd).2
    simp_all

/-- C1 (amended): the train set is disjoint from the heldout, test and
excluded sets, and the excluded set is disjoint from the heldout and test
sets, but the test set is entirely contained in the heldout set (every
test identifier has string length 2 and belongs to the full set), so
heldout and test are not disjoint; the union of the train, heldout, test
and excluded sets covers the full set. -/
theorem C1_sets_partition (params : List String) :
    (∀ x ∈ RGB_OBJECTS_TRAIN_SET params, ¬ x ∈ RGB_OBJECTS_HELDOUT_SET params)
  ∧ (∀ x ∈ RGB_OBJECTS_TRAIN_SET params, ¬ x ∈ RGB_OBJECTS_TEST_SET)
  ∧ (∀ x ∈ RGB_OBJECTS_TRAIN_SET params, ¬ x ∈ D_OBJECTS params)
  ∧ (∀ x ∈ RGB_OBJECTS_HELDOUT_SET params, ¬ x ∈ D_OBJECTS params)
  ∧ (∀ x ∈ RGB_OBJECTS_TEST_SET, ¬ x ∈ D_OBJECTS params)
  ∧ (∀ x ∈ RGB_OBJECTS_TEST_SET, x ∈ RGB_OBJECTS_HELDOUT_SET params)
  ∧ (∀ x ∈ RGB_OBJECTS_FULL_SET params,
      x ∈ RGB_OBJECTS_TRAIN_SET params ∨ x ∈ RGB_OBJECTS_HELDOUT_SET params ∨
        x ∈ RGB_OBJECTS_TEST_SET ∨ x ∈ D_OBJECTS params) := by
  refine ⟨?_, ?_, ?_, ?_, ?_, ?_, ?_⟩
  · exact fun x hx => ((mem_TRAIN_SET params x).mp hx).2.1
  · exact fun x hx => ((mem_TRAIN_SET params x).mp hx).2.2.2
  · exact fun x hx => ((mem_TRAIN_SET params x).mp hx).2.2.1
  · exact fun x hx => heldout_not_d params x hx
  · intro x ht hd
    have := (test_set_lengths x ht).2
    have := ((mem_D_OBJECTS params x).mp hd).2
    simp_all
  · intro x ht
    exact (mem_HELDOUT_SET params x).mpr
      ⟨test_subset_full params x ht, (test_set_lengths x ht).1⟩
  · intro x hf
    by_cases hh : x ∈ RGB_OBJECTS_HELDOUT_SET params
    · exact Or.inr (Or.inl hh)
    by_cases ht : x ∈ RGB_OBJECTS_TEST_SET
    · exact Or.inr (Or.inr (Or.inl ht))
    by_cases hd : x ∈ D_OBJECTS params
    · exact Or.inr (Or.inr (Or.inr hd))
    · exact Or.inl ((mem_TRAIN_SET params x).mpr ⟨hf, hh, hd, ht⟩)

/-- C1 counterexample: at the spec-modelled catalog the identifier `s0`
belongs to both the heldout set and the test set, so the heldout and test
sets are not pairwise disjoint as the claim states. -/
theorem C1_disjointness_counterexample :
    "s0" ∈ RGB_OBJECTS_HELDOUT_SET RGB_OBJECTS_PARAMS_modelled ∧
    "s0" ∈ RGB_OBJECTS_TEST_SET := by
  constructor
  · exact (mem_HELDOUT_SET _ _).mpr
      ⟨(mem_FULL_SET _ _).mpr (Or.inr (by decide)), by decide⟩
  · decide

/-- C1 witness: the amended partition statement instantiated at the
spec-modelled catalog, on the train identifier `f23` and on `s0`. -/
theorem C1_sets_partition_witness :
    (¬ "f23" ∈ RGB_OBJECTS_HELDOUT_SET RGB_OBJECTS_PARAMS_modelled)
  ∧ ("s0" ∈ RGB_OBJECTS_HELDOUT_SET RGB_OBJECTS_PARAMS_modelled)
  ∧ ("s0" ∈ RGB_OBJECTS_TRAIN_SET RGB_OBJECTS_PARAMS_modelled ∨
      "s0" ∈ RGB_OBJECTS_HELDOUT_SET RGB_OBJECTS_PARAMS_modelled ∨
      "s0" ∈ RGB_OBJECTS_TEST_SET ∨
      "s0" ∈ D_OBJECTS RGB_OBJECTS_PARAMS_modelled) := by
  have hf23 : "f23" ∈ RGB_OBJECTS_TRAIN_SET RGB_OBJECTS_PARAMS_modelled := by
    refine (mem_TRAIN_SET _ _).mpr ⟨?_, ?_, ?_, by decide⟩
    · refine (mem_FULL_SET _ _).mpr (Or.inl ⟨by decide, ?_⟩)
      intro hd
      exact absurd ((mem_D_OBJECTS _ _).mp hd).2 (by decide)
    · intro hh
      exact absurd ((mem_HELDOUT_SET _ _).mp hh).2 (by decide)
    · intro hd
      exact absurd ((mem_D_OBJECTS _ _).mp hd).2 (by decide)
  have hs0full : "s0" ∈ RGB_OBJECTS_FULL_SET RGB_OBJECTS_PARAMS_modelled :=
    (mem_FULL_SET _ _).mpr (Or.inr (by decide))
  exact ⟨(C1_sets_partition _).1 "f23" hf23,
    (C1_sets_partition _).2.2.2.2.2.1 "s0" (by decide),
    (C1_sets_partition _).2.2.2.2.2.2 "s0" hs0full⟩

/-- C6: the heldout set consists of exactly the identifiers of string
length 2 in the full set, listed in sorted (code-point lexicographic)
order. -/
theorem C6_heldout_characterization (params : List String) :
    (∀ x, x ∈ RGB_OBJECTS_HELDOUT_SET params ↔
      x ∈ RGB_OBJECTS_FULL_SET params ∧ x.length = 2)
  ∧ List.Sorted strLeRel (RGB_OBJECTS_HELDOUT_SET params) :=
  ⟨fun x => mem_HELDOUT_SET params x, pySorted_sorted _⟩

/-- C6 witness: the characterization instantiated at the spec-modelled
catalog and the identifier `b2`. -/
theorem C6_heldout_characterization_witness :
    ("b2" ∈ RGB_OBJECTS_HELDOUT_SET RGB_OBJECTS_PARAMS_modelled ↔
      "b2" ∈ RGB_OBJECTS_FULL_SET RGB_OBJECTS_PARAMS_modelled ∧
        ("b2" : String).length = 2)
  ∧ List.Sorted strLeRel (RGB_OBJECTS_HELDOUT_SET RGB_OBJECTS_PARAMS_modelled) :=
  ⟨(C6_heldout_characterization RGB_OBJECTS_PARAMS_modelled).1 "b2",
    (C6_heldout_characterization RGB_OBJECTS_PARAMS_modelled).2⟩

theorem pySplit_ne_nil (sep : Char) (l : List Char) : pySplit sep l ≠ [] := by
  cases l with
  | nil => simp [pySplit]
  | cons c cs =>
    simp only [pySplit]
    cases hps : pySplit sep cs with
    | nil => simp
    | cons hh tt => by_cases hc : c = sep <;> simp [hc]

theorem pySplit_head (sep : Char) (l : List Char) :
    (pySplit sep l).headD [] = l.takeWhile (fun c => ¬ c = sep) := by
  induction l with
  | nil => simp [pySplit]
  | cons c cs ih =>
    simp only [pySplit]
    cases hps : pySplit sep cs with
    | nil => exact absurd hps (pySplit_ne_nil sep cs)
    | cons hh tt =>
      rw [hps] at ih
      by_cases hc : c = sep
      · simp [hc, List.takeWhile_cons]
      · simp only [List.headD_cons] at ih
        simp [hc, List.takeWhile_cons, ih]

theorem strMk_toList (f : String) : String.mk f.toList = f := rfl

/-- C8 (amended): the extraction function returns the substring of its
input before the first underscore, verbatim; it strips neither directory
components nor the file extension, so a filename without an underscore is
returned whole, extension included. (For filenames of the documented form
`<identifier>_<parameter-suffix>.<ext>` the extension is excluded only
because it follows an underscore.) -/
theorem C8_id_from_file (filename : String) :
    RGB_OBJECTS_ID_FROM_FILE filename =
      String.mk (filename.toList.takeWhile (fun c => ¬ c = '_'))
  ∧ (¬ '_' ∈ filename.toList → RGB_OBJECTS_ID_FROM_FILE filename = filename) := by
  constructor
  · rw [RGB_OBJECTS_ID_FROM_FILE, pySplit_head]
  · intro h
    rw [RGB_OBJECTS_ID_FROM_FILE, pySplit_head, List.takeWhile_eq_self_iff.mpr,
      strMk_toList]
    intro a ha
    simp only [decide_eq_true_eq]
    intro hEq
    exact h (hEq ▸ ha)

/-- C8 counterexample: on the underscore-free mesh filename `r2.stl` the
source function keeps the extension, while the extraction the claim
describes would remove it. -/
theorem C8_counterexample :
    RGB_OBJECTS_ID_FROM_FILE "r2.stl" = "r2.stl"
  ∧ specIdExtraction "r2.stl" = "r2"
  ∧ ¬ RGB_OBJECTS_ID_FROM_FILE "r2.stl" = specIdExtraction "r2.stl" :=
  ⟨by decide, by decide, by decide⟩

/-- C8 witness: the amended statement applied at the concrete filenames
`r3_a_v1.stl` and `r2.stl`. -/
theorem C8_id_from_file_witness :
    RGB_OBJECTS_ID_FROM_FILE "r3_a_v1.stl" =
      String.mk (("r3_a_v1.stl" : String).toList.takeWhile (fun c => ¬ c = '_'))
  ∧ RGB_OBJECTS_ID_FROM_FILE "r2.stl" = "r2.stl" :=
  ⟨(C8_id_from_file "r3_a_v1.stl").1, (C8_id_from_file "r2.stl").2 (by decide)⟩

/-- C3 (amended): the first call populates the cache entry; once the
entry holds a non-empty scan result, every later call without an
intervening `clear_cache()` returns the cached list unchanged, leaves the
state unchanged and performs no directory scan; after `clear_cache()`
the next call performs a scan again. (When the scan result is empty the
entry is falsy and every call re-scans; see the counterexample.) -/
theorem C3_mesh_cache (scan : PropsVersion → List String) (st : DatasetCache)
    (h1 : st V1 = some (scan V1)) (h2 : ¬ scan V1 = []) :
    ((datasetCall scan initDataset V1).2.1 V1 = some (scan V1))
  ∧ (datasetCall scan st V1 = (scan V1, st, 0))
  ∧ ((datasetCall scan (clear_cache st) V1).2.2 = 1) := by
  refine ⟨?_, ?_, ?_⟩
  · simp [datasetCall, initDataset, cacheFalsy]
  · have hf : cacheFalsy (some (scan V1)) = false := by
      cases hsc : scan V1 with
      | nil => exact absurd hsc h2
      | cons a as => rfl
    simp [datasetCall, h1, hf]
  · simp [datasetCall, clear_cache, cacheFalsy]

/-- C3 counterexample: with directory contents yielding zero mesh files
the first call does populate the cache entry (with the empty list), yet
the second call, without any `clear_cache()`, performs another directory
scan, because the empty stored list is falsy in the guard. -/
theorem C3_counterexample :
    ((datasetCall (fun _ => []) initDataset V1).2.1 V1 = some [])
  ∧ ((datasetCall (fun _ => [])
        (datasetCall (fun _ => []) initDataset V1).2.1 V1).2.2 = 1) :=
  ⟨rfl, rfl⟩

/-- C3 witness: the amended cache statement applied to a one-file scan
result, with the state produced by the first call. -/
theorem C3_mesh_cache_witness :
    datasetCall (fun _ => ["x.stl"])
      ((datasetCall (fun _ => ["x.stl"]) initDataset V1).2.1) V1 =
      (["x.stl"], (datasetCall (fun _ => ["x.stl"]) initDataset V1).2.1, 0) :=
  (C3_mesh_cache (fun _ => ["x.stl"])
    ((datasetCall (fun _ => ["x.stl"]) initDataset V1).2.1) rfl (by decide)).2.1

theorem npChoice_mem (l : List String) (h : ¬ l = []) (k : Nat) :
    ∃ x, npChoice l k = some x ∧ x ∈ l := by
  have hl : 0 < l.length := List.length_pos.mpr h
  have hk : k % l.length < l.length := Nat.mod_lt _ hl
  refine ⟨l.get ⟨k % l.length, hk⟩, ?_, List.get_mem l _ hk⟩
  simp [npChoice, List.get?_eq_get hk]

theorem PROP_FEATURES_ids_ne_nil (params : List String) (v : PropsVersion) :
    ¬ PROP_FEATURES_ids params v = [] := by
  cases v
  exact full_set_ne_nil params

theorem pyTruthy_some_ne_nil (l : List String) (h : ¬ l = []) :
    pyTruthy (some l) = true := by
  cases l with
  | nil => exact absurd rfl h
  | cons a as => rfl

theorem effectiveChannelList_ne_nil (idList : List String) (chan : Option (List String))
    (h : ¬ idList = []) : ¬ effectiveChannelList idList chan = [] := by
  unfold effectiveChannelList
  cases chan with
  | none => simpa [pyTruthy]
  | some c =>
    cases c with
    | nil => simpa [pyTruthy]
    | cons a as => simp [pyTruthy]

theorem drawTriplet_spec (rgb_version : PropsVersion) (kr kg kb : Nat)
    (idList : List String) (idr idg idb : Option (List String))
    (h : ¬ idList = []) :
    ∃ r g b,
      drawTriplet rgb_version kr kg kb idList idr idg idb =
        Except.ok ⟨rgb_version, [r, g, b]⟩ ∧
      r ∈ effectiveChannelList idList idr ∧
      g ∈ effectiveChannelList idList idg ∧
      b ∈ effectiveChannelList idList idb := by
  obtain ⟨r, hr, hrm⟩ := npChoice_mem _ (effectiveChannelList_ne_nil idList idr h) kr
  obtain ⟨g, hg, hgm⟩ := npChoice_mem _ (effectiveChannelList_ne_nil idList idg h) kg
  obtain ⟨b, hb, hbm⟩ := npChoice_mem _ (effectiveChannelList_ne_nil idList idb h) kb
  exact ⟨r, g, b, by simp [drawTriplet, hr, hg, hb], hrm, hgm, hbm⟩

/-- C9: an empty restriction list is falsy, exactly like an absent one:
passing `[]` for the shared list (or for a per-channel list) produces the
same result as passing nothing, so validation is skipped for it and the
call does not raise. -/
theorem C9_empty_list_fallback (params : List String) (v : PropsVersion)
    (kr kg kb : Nat) (sh idr idg idb : Option (List String)) :
    (random_triplet params v kr kg kb (some []) idr idg idb =
      random_triplet params v kr kg kb none idr idg idb)
  ∧ (random_triplet params v kr kg kb sh (some []) idg idb =
      random_triplet params v kr kg kb sh none idg idb)
  ∧ (random_triplet params v kr kg kb sh idr (some []) idb =
      random_triplet params v kr kg kb sh idr none idb)
  ∧ (random_triplet params v kr kg kb sh idr idg (some []) =
      random_triplet params v kr kg kb sh idr idg none)
  ∧ (∃ t, random_triplet params v kr kg kb (some []) none none none =
      Except.ok t) := by
  refine ⟨rfl, rfl, rfl, rfl, ?_⟩
  obtain ⟨r, g, b, hok, -, -, -⟩ :=
    drawTriplet_spec v kr kg kb (PROP_FEATURES_ids params v) none none none
      (PROP_FEATURES_ids_ne_nil params v)
  exact ⟨⟨v, [r, g, b]⟩, hok⟩

/-- C10: per-channel restriction lists are never validated against the
full identifier set: for every non-empty per-channel list the drawn
identifier for that channel is an element of that very list, no error is
raised, and no membership in the full set is required. -/
theorem C10_per_channel_unvalidated (params : List String) (v : PropsVersion)
    (kr kg kb : Nat) (l : List String) (h : ¬ l = []) :
    (∃ r g b, random_triplet params v kr kg kb none (some l) none none =
        Except.ok ⟨v, [r, g, b]⟩ ∧ r ∈ l)
  ∧ (∃ r g b, random_triplet params v kr kg kb none none (some l) none =
        Except.ok ⟨v, [r, g, b]⟩ ∧ g ∈ l)
  ∧ (∃ r g b, random_triplet params v kr kg kb none none none (some l) =
        Except.ok ⟨v, [r, g, b]⟩ ∧ b ∈ l) := by
  have hfull := PROP_FEATURES_ids_ne_nil params v
  have heff : effectiveChannelList (PROP_FEATURES_ids params v) (some l) = l := by
    simp [effectiveChannelList, pyTruthy_some_ne_nil l h]
  refine ⟨?_, ?_, ?_⟩
  · obtain ⟨r, g, b, hok, hrm, -, -⟩ :=
      drawTriplet_spec v kr kg kb (PROP_FEATURES_ids params v) (some l) none none hfull
    exact ⟨r, g, b, hok, heff ▸ hrm⟩
  · obtain ⟨r, g, b, hok, -, hgm, -⟩ :=
      drawTriplet_spec v kr kg kb (PROP_FEATURES_ids params v) none (some l) none hfull
    exact ⟨r, g, b, hok, heff ▸ hgm⟩
  · obtain ⟨r, g, b, hok, -, -, hbm⟩ :=
      drawTriplet_spec v kr kg kb (PROP_FEATURES_ids params v) none none (some l) hfull
    exact ⟨r, g, b, hok, heff ▸ hbm⟩

/-- C10 witness: with the spec-modelled catalog and the per-channel red
list `["zzz"]`, whose identifier is not in the full set, the call
succeeds and draws `zzz` for the red channel. -/
theorem C10_per_channel_unvalidated_witness :
    (¬ "zzz" ∈ RGB_OBJECTS_FULL_SET RGB_OBJECTS_PARAMS_modelled)
  ∧ (∃ r g b,
      random_triplet RGB_OBJECTS_PARAMS_modelled V1 0 0 0
          none (some ["zzz"]) none none =
        Except.ok ⟨V1, [r, g, b]⟩ ∧ r ∈ ["zzz"]) := by
  refine ⟨?_,
    (C10_per_channel_unvalidated RGB_OBJECTS_PARAMS_modelled V1 0 0 0 ["zzz"]
      (by decide)).1⟩
  intro hm
  rcases (mem_FULL_SET _ _).mp hm with ⟨hp, -⟩ | ht
  · exact absurd hp (by decide)
  · exact absurd ht (by decide)

/-- C5: with a truthy shared restriction list containing an identifier
outside the full set of the version, `random_triplet` fails with the
invalid-argument error naming the (first) offending identifier; when
every identifier of the shared list is in the full set, the call succeeds
and each channel is drawn from its effective restriction list (the
per-channel list when truthy, else the shared list when truthy, else the
full set); in particular with the per-channel singletons `["r2"]`,
`["g2"]`, `["b2"]` the result is exactly `(r2, g2, b2)`. -/
theorem C5_random_triplet_validation (params : List String) (v : PropsVersion)
    (kr kg kb : Nat) (sh idr idg idb : Option (List String)) :
    (∀ l, sh = some l → (∃ x, x ∈ l ∧ ¬ x ∈ PROP_FEATURES_ids params v) →
      ∃ bad, bad ∈ l ∧ ¬ bad ∈ PROP_FEATURES_ids params v ∧
        random_triplet params v kr kg kb sh idr idg idb =
          Except.error (RgbError.invalidArgument
            ("id_list includes " ++ bad ++ " which is not part of " ++ versionStr v)))
  ∧ ((∀ l, sh = some l → ∀ x ∈ l, x ∈ PROP_FEATURES_ids params v) →
      ∃ r g b,
        random_triplet params v kr kg kb sh idr idg idb =
          Except.ok ⟨v, [r, g, b]⟩ ∧
        r ∈ effectiveChannelList
            (if pyTruthy sh then sh.getD [] else PROP_FEATURES_ids params v) idr ∧
        g ∈ effectiveChannelList
            (if pyTruthy sh then sh.getD [] else PROP_FEATURES_ids params v) idg ∧
        b ∈ effectiveChannelList
            (if pyTruthy sh then sh.getD [] else PROP_FEATURES_ids params v) idb)
  ∧ (random_triplet params v kr kg kb none (some ["r2"]) (some ["g2"]) (some ["b2"]) =
      Except.ok ⟨v, ["r2", "g2", "b2"]⟩) := by
  refine ⟨?_, ?_, ?_⟩
  · rintro l rfl ⟨x, hxl, hxf⟩
    have hne : ¬ l = [] := List.ne_nil_of_mem hxl
    have hfind : ((some l : Option (List String)).getD []).find?
        (fun object_id => ¬ object_id ∈ PROP_FEATURES_ids params v) |>.isSome := by
      simp only [Option.getD_some]
      exact List.find?_isSome.mpr ⟨x, hxl, by simpa using hxf⟩
    obtain ⟨bad, hbad⟩ := Option.isSome_iff_exists.mp hfind
    simp only [Option.getD_some] at hbad
    refine ⟨bad, List.mem_of_find?_eq_some hbad, ?_, ?_⟩
    · simpa using List.find?_some hbad
    · simp only [decide_not] at hbad
      simp [random_triplet, pyTruthy_some_ne_nil l hne, hbad]
  · intro hvalid
    cases htr : pyTruthy sh with
    | false =>
      obtain ⟨r, g, b, hok, hrm, hgm, hbm⟩ :=
        drawTriplet_spec v kr kg kb (PROP_FEATURES_ids params v) idr idg idb
          (PROP_FEATURES_ids_ne_nil params v)
      exact ⟨r, g, b, by simp [random_triplet, htr, hok], hrm, hgm, hbm⟩
    | true =>
      obtain ⟨l, rfl⟩ : ∃ l, sh = some l := by
        cases sh with
        | none => simp [pyTruthy] at htr
        | some l => exact ⟨l, rfl⟩
      have hne : ¬ l = [] := by
        intro hnil
        rw [hnil] at htr
        simp [pyTruthy] at htr
      have hfind : l.find? (fun object_id => ¬ object_id ∈ PROP_FEATURES_ids params v)
          = none :=
        List.find?_eq_none.mpr (fun x hx => by simpa using hvalid l rfl x hx)
      obtain ⟨r, g, b, hok, hrm, hgm, hbm⟩ :=
        drawTriplet_spec v kr kg kb l idr idg idb hne
      simp only [decide_not] at hfind
      exact ⟨r, g, b, by simp [random_triplet, htr, hfind, hok], hrm, hgm, hbm⟩
  · simp [random_triplet, pyTruthy, drawTriplet, effectiveChannelList, npChoice,
      Nat.mod_one]

/-- C5 witness: at the spec-modelled catalog, a shared list containing the
foreign identifier `zz1` fails with the invalid-argument error naming it,
a valid shared list succeeds, and the per-channel singletons force the
triplet `(r2, g2, b2)`. -/
theorem C5_random_triplet_validation_witness :
    (∃ bad, bad ∈ ["zz1"] ∧
      ¬ bad ∈ PROP_FEATURES_ids RGB_OBJECTS_PARAMS_modelled V1 ∧
      random_triplet RGB_OBJECTS_PARAMS_modelled V1 0 0 0
          (some ["zz1"]) none none none =
        Except.error (RgbError.invalidArgument
          ("id_list includes " ++ bad ++ " which is not part of " ++ versionStr V1)))
  ∧ (∃ r g b,
      random_triplet RGB_OBJECTS_PARAMS_modelled V1 0 0 0
          (some ["r2", "g2"]) none none none =
        Except.ok ⟨V1, [r, g, b]⟩ ∧
      r ∈ effectiveChannelList
          (if pyTruthy (some ["r2", "g2"]) then (some ["r2", "g2"]).getD []
           else PROP_FEATURES_ids RGB_OBJECTS_PARAMS_modelled V1) none ∧
      g ∈ effectiveChannelList
          (if pyTruthy (some ["r2", "g2"]) then (some ["r2", "g2"]).getD []
           else PROP_FEATURES_ids RGB_OBJECTS_PARAMS_modelled V1) none ∧
      b ∈ effectiveChannelList
          (if pyTruthy (some ["r2", "g2"]) then (some ["r2", "g2"]).getD []
           else PROP_FEATURES_ids RGB_OBJECTS_PARAMS_modelled V1) none)
  ∧ (random_triplet RGB_OBJECTS_PARAMS_modelled V1 0 0 0
        none (some ["r2"]) (some ["g2"]) (some ["b2"]) =
      Except.ok ⟨V1, ["r2", "g2", "b2"]⟩) := by
  have hzz : ¬ "zz1" ∈ PROP_FEATURES_ids RGB_OBJECTS_PARAMS_modelled V1 := by
    intro hm
    rcases (mem_FULL_SET _ _).mp hm with ⟨hp, -⟩ | ht
    · exact absurd hp (by decide)
    · exact absurd ht (by decide)
  have hvalid : ∀ l, (some ["r2", "g2"] : Option (List String)) = some l →
      ∀ x ∈ l, x ∈ PROP_FEATURES_ids RGB_OBJECTS_PARAMS_modelled V1 := by
    rintro l hl x hx
    obtain rfl : ["r2", "g2"] = l := Option.some.inj hl
    have hx2 : x = "r2" ∨ x = "g2" := by simpa using hx
    rcases hx2 with rfl | rfl
    · exact (mem_FULL_SET _ _).mpr (Or.inr (by decide))
    · exact (mem_FULL_SET _ _).mpr (Or.inr (by decide))
  exact ⟨(C5_random_triplet_validation RGB_OBJECTS_PARAMS_modelled V1 0 0 0
      (some ["zz1"]) none none none).1 ["zz1"] rfl ⟨"zz1", by decide, hzz⟩,
    (C5_random_triplet_validation RGB_OBJECTS_PARAMS_modelled V1 0 0 0
      (some ["r2", "g2"]) none none none).2.1 hvalid,
    (C5_random_triplet_validation RGB_OBJECTS_PARAMS_modelled V1 0 0 0
      none none none none).2.2⟩

theorem fixedTripletKeys_eq :
    fixedTripletKeys =
      ["rgb_test_triplet1", "rgb_test_triplet2", "rgb_test_triplet3",
       "rgb_test_triplet4", "rgb_test_triplet5"] := by decide

/-- C4: for the single supported version, `fixed_random_triplet` always
returns one of the five predefined triplet constants verbatim, and each
of the five is reachable for some draw. The version enumeration has
exactly one member, so the not-implemented branch of the source for other
versions has no instance to quantify over. -/
theorem C4_fixed_random_triplet_range :
    (∀ k : Nat, ∀ v : PropsVersion, ∃ p, p ∈ PROP_TRIPLETS_TEST ∧
      fixed_random_triplet k v = Except.ok p.2)
  ∧ (∀ p ∈ PROP_TRIPLETS_TEST, ∃ k : Nat, fixed_random_triplet k V1 = Except.ok p.2) := by
  constructor
  · intro k v
    cases v
    have h5 : k % 5 = 0 ∨ k % 5 = 1 ∨ k % 5 = 2 ∨ k % 5 = 3 ∨ k % 5 = 4 := by omega
    show ∃ p, p ∈ PROP_TRIPLETS_TEST ∧ fixed_random_triplet k V1 = Except.ok p.2
    simp only [fixed_random_triplet, npChoice, fixedTripletKeys_eq, V1]
    rcases h5 with h | h | h | h | h <;> rw [List.length_cons] <;>
      simp only [List.length_cons, List.length_nil] <;> rw [h]
    · exact ⟨("rgb_test_triplet1", ⟨V1, ["r3", "s0", "b2"]⟩), by decide, rfl⟩
    · exact ⟨("rgb_test_triplet2", ⟨V1, ["r5", "g2", "b3"]⟩), by decide, rfl⟩
    · exact ⟨("rgb_test_triplet3", ⟨V1, ["r6", "g3", "b5"]⟩), by decide, rfl⟩
    · exact ⟨("rgb_test_triplet4", ⟨V1, ["s0", "g5", "b6"]⟩), by decide, rfl⟩
    · exact ⟨("rgb_test_triplet5", ⟨V1, ["r2", "g6", "s0"]⟩), by decide, rfl⟩
  · intro p hp
    fin_cases hp
    · exact ⟨0, rfl⟩
    · exact ⟨1, rfl⟩
    · exact ⟨2, rfl⟩
    · exact ⟨3, rfl⟩
    · exact ⟨4, rfl⟩

/-- C4 witness: at the draw index 7 the result is the third predefined
triplet, and the fifth predefined triplet is reachable. -/
theorem C4_fixed_random_triplet_range_witness :
    (∃ p, p ∈ PROP_TRIPLETS_TEST ∧ fixed_random_triplet 7 V1 = Except.ok p.2)
  ∧ (∃ k : Nat, fixed_random_triplet k V1 =
      Except.ok (⟨V1, ["r2", "g6", "s0"]⟩ : PropsSetType)) :=
  ⟨C4_fixed_random_triplet_range.1 7 V1,
    C4_fixed_random_triplet_range.2 ("rgb_test_triplet5", ⟨V1, ["r2", "g6", "s0"]⟩)
      (by decide)⟩

/-- C2 (amended): the named dataset registry `PROP_TRIPLETS` maps exactly
eight keys: the five predefined test-triplet keys to their literal
triplets, `rgb_train_random` and `rgb_heldout_random` to zero-argument
samplers whose shared restriction list is bound to the train
(respectively heldout) set, and `rgb_test_random` to the
fixed-predefined-random sampler. The axis-conditioned callables (one key
`rgb_blue_dim<axis>` per deformation axis, with the blue channel bound to
the identifier list of that axis) are produced by a separate helper
family which is not part of the registry. -/
theorem C2_registry_contents (params : List String) :
    ((PROP_TRIPLETS params).map Prod.fst =
      ["rgb_test_triplet1", "rgb_test_triplet2", "rgb_test_triplet3",
       "rgb_test_triplet4", "rgb_test_triplet5", "rgb_train_random",
       "rgb_heldout_random", "rgb_test_random"])
  ∧ (∀ p ∈ PROP_TRIPLETS_TEST,
      (p.1, RegistryEntry.triplet p.2) ∈ PROP_TRIPLETS params)
  ∧ (("rgb_train_random",
        RegistryEntry.randomSampler (some (RGB_OBJECTS_TRAIN_SET params)) none) ∈
      PROP_TRIPLETS params)
  ∧ (("rgb_heldout_random",
        RegistryEntry.randomSampler (some (RGB_OBJECTS_HELDOUT_SET params)) none) ∈
      PROP_TRIPLETS params)
  ∧ (("rgb_test_random", RegistryEntry.fixedRandom) ∈ PROP_TRIPLETS params)
  ∧ (∀ a ∈ DEFORMATION_AXES,
      ¬ ("rgb_blue_dim" ++ a) ∈ (PROP_TRIPLETS params).map Prod.fst)
  ∧ ((define_blue_prop_triplets params "rgb_blue_dim" none DEFORMATION_AXES).map
        Prod.fst = DEFORMATION_AXES.map (fun a => "rgb_blue_dim" ++ a))
  ∧ (∀ a ∈ DEFORMATION_AXES,
      ("rgb_blue_dim" ++ a,
          RegistryEntry.randomSampler none (some (dimLookup params a))) ∈
        define_blue_prop_triplets params "rgb_blue_dim" none DEFORMATION_AXES) := by
  refine ⟨rfl, ?_, ?_, ?_, ?_, ?_, rfl, ?_⟩
  · intro p hp
    exact List.mem_append.mpr
      (Or.inl (List.mem_map_of_mem (fun q => (q.1, RegistryEntry.triplet q.2)) hp))
  · exact List.mem_append.mpr (Or.inr (by simp [RANDOM_PROP_TRIPLETS_FUNCTIONS]))
  · exact List.mem_append.mpr (Or.inr (by simp [RANDOM_PROP_TRIPLETS_FUNCTIONS]))
  · exact List.mem_append.mpr (Or.inr (by simp [RANDOM_PROP_TRIPLETS_FUNCTIONS]))
  · intro a ha
    have hkeys : (PROP_TRIPLETS params).map Prod.fst =
        ["rgb_test_triplet1", "rgb_test_triplet2", "rgb_test_triplet3",
         "rgb_test_triplet4", "rgb_test_triplet5", "rgb_train_random",
         "rgb_heldout_random", "rgb_test_random"] := rfl
    rw [hkeys]
    fin_cases ha <;> decide
  · intro a ha
    exact List.mem_map_of_mem
      (fun a => ("rgb_blue_dim" ++ a,
        RegistryEntry.randomSampler none (some (dimLookup params a)))) ha

/-- C2 counterexample: `23` is a deformation axis, yet the registry has
no key for it; its keys are exactly the eight listed ones. -/
theorem C2_registry_counterexample :
    "23" ∈ DEFORMATION_AXES ∧
    ¬ "rgb_blue_dim23" ∈ (PROP_TRIPLETS RGB_OBJECTS_PARAMS_modelled).map Prod.fst :=
  ⟨by decide, by decide⟩

/-- C2 witness: the amended registry statement at the spec-modelled
catalog, applied to the first test triplet and the axis `23`. -/
theorem C2_registry_contents_witness :
    (("rgb_test_triplet1", RegistryEntry.triplet ⟨V1, ["r3", "s0", "b2"]⟩) ∈
      PROP_TRIPLETS RGB_OBJECTS_PARAMS_modelled)
  ∧ (¬ ("rgb_blue_dim" ++ "23") ∈
      (PROP_TRIPLETS RGB_OBJECTS_PARAMS_modelled).map Prod.fst)
  ∧ (("rgb_blue_dim" ++ "23",
        RegistryEntry.randomSampler none
          (some (dimLookup RGB_OBJECTS_PARAMS_modelled "23"))) ∈
      define_blue_prop_triplets RGB_OBJECTS_PARAMS_modelled "rgb_blue_dim" none
        DEFORMATION_AXES) :=
  ⟨(C2_registry_contents RGB_OBJECTS_PARAMS_modelled).2.1
      ("rgb_test_triplet1", ⟨V1, ["r3", "s0", "b2"]⟩) (by decide),
    (C2_registry_contents RGB_OBJECTS_PARAMS_modelled).2.2.2.2.2.1 "23" (by decide),
    (C2_registry_contents RGB_OBJECTS_PARAMS_modelled).2.2.2.2.2.2.2 "23" (by decide)⟩

theorem recordLookup_cons (p : String × Int) (rest : ParamsRecord) (k : String) :
    recordLookup (p :: rest) k =
      if p.1 = k then some p.2 else recordLookup rest k := by
  by_cases h : p.1 = k <;> simp [recordLookup, List.find?_cons, h]

theorem recordSet_keys (d : ParamsRecord) (k : String) (v : Int) :
    (recordSet d k v).map Prod.fst = d.map Prod.fst := by
  induction d with
  | nil => rfl
  | cons p rest ih =>
    by_cases h : p.1 = k <;> simp [recordSet, h] <;>
      simpa [recordSet] using ih

theorem exists_lookup_of_mem_keys (d : ParamsRecord) (k : String)
    (h : k ∈ d.map Prod.fst) : ∃ v, recordLookup d k = some v := by
  induction d with
  | nil => simp at h
  | cons p rest ih =>
    rw [recordLookup_cons]
    by_cases hp : p.1 = k
    · exact ⟨p.2, by simp [hp]⟩
    · simp only [hp, if_false]
      apply ih
      rcases List.mem_map.mp h with ⟨q, hq, hqk⟩
      rcases List.mem_cons.mp hq with rfl | hq2
      · exact absurd hqk hp
      · exact List.mem_map.mpr ⟨q, hq2, hqk⟩

theorem lookup_none_of_not_mem_keys (d : ParamsRecord) (k : String)
    (h : ¬ k ∈ d.map Prod.fst) : recordLookup d k = none := by
  induction d with
  | nil => rfl
  | cons p rest ih =>
    rw [recordLookup_cons]
    have hp : ¬ p.1 = k := fun he => h (by simp [he.symm])
    simp only [hp, if_false]
    exact ih (fun hm => h (by simp [List.mem_map] at hm ⊢; tauto))

theorem recordLookup_recordSet (d : ParamsRecord) (k k2 : String) (v : Int) :
    recordLookup (recordSet d k v) k2 =
      if k2 = k then (if k ∈ d.map Prod.fst then some v else none)
      else recordLookup d k2 := by
  induction d with
  | nil => by_cases h : k2 = k <;> simp [recordSet, recordLookup, h]
  | cons p rest ih =>
    have hset : recordSet (p :: rest) k v =
        (if p.1 = k then (p.1, v) else p) :: recordSet rest k v := rfl
    rw [hset, recordLookup_cons, recordLookup_cons]
    by_cases hk2 : k2 = k
    · subst hk2
      by_cases hpk : p.1 = k2
      · simp [hpk, ih]
      · have hsymm : ¬ k2 = p.1 := fun he => hpk he.symm
        simp [hpk, ih, hsymm, List.mem_cons]
        by_cases hm : k2 ∈ List.map Prod.fst rest
        · rw [if_pos hm, if_pos (List.mem_cons.mpr (Or.inr hm))]
        · rw [if_neg hm, if_neg (fun hc => (List.mem_cons.mp hc).elim hsymm hm)]
    · by_cases hpk : p.1 = k
      · have h1 : ¬ p.1 = k2 := fun he => hk2 (he.symm.trans hpk)
        have h2 : ¬ k = k2 := fun he => hk2 he.symm
        simp [hpk, hk2, h1, h2, ih]
      · by_cases hpk2 : p.1 = k2
        · simp [hpk, hpk2, hk2]
        · simp [hpk, hpk2, hk2, ih]

theorem foldRecord_spec (op : Int → Int → Int) (r : ParamsRecord) :
    ∀ d : ParamsRecord,
    (∀ k, k ∈ r.map Prod.fst → k ∈ d.map Prod.fst) →
    (r.map Prod.fst).Nodup →
    ∃ d2, foldRecord op d r = some d2 ∧
      d2.map Prod.fst = d.map Prod.fst ∧
      (∀ k, ¬ k ∈ r.map Prod.fst → recordLookup d2 k = recordLookup d k) ∧
      (∀ k w, recordLookup r k = some w → ∀ u, recordLookup d k = some u →
        recordLookup d2 k = some (op u w)) := by
  induction r with
  | nil =>
    intro d _ _
    exact ⟨d, rfl, rfl, fun k _ => rfl, fun k w hw => by simp [recordLookup] at hw⟩
  | cons kv rt ih =>
    intro d hsub hnd
    obtain ⟨u0, hu0⟩ := exists_lookup_of_mem_keys d kv.1 (hsub kv.1 (by simp))
    have hstep : foldRecord op d (kv :: rt) =
        foldRecord op (recordSet d kv.1 (op u0 kv.2)) rt := by
      simp [foldRecord, hu0]
    have hkeys1 : (recordSet d kv.1 (op u0 kv.2)).map Prod.fst = d.map Prod.fst :=
      recordSet_keys d kv.1 (op u0 kv.2)
    have hnd2 : (rt.map Prod.fst).Nodup := (List.nodup_cons.mp (by simpa using hnd)).2
    have hk0nr : ¬ kv.1 ∈ rt.map Prod.fst :=
      (List.nodup_cons.mp (by simpa using hnd)).1
    obtain ⟨d2, hfold, hkeys2, hsame, hupd⟩ :=
      ih (recordSet d kv.1 (op u0 kv.2))
        (fun k hk => hkeys1 ▸ hsub k (by simp [hk]))
        hnd2
    refine ⟨d2, hstep ▸ hfold, hkeys2.trans hkeys1, ?_, ?_⟩
    · intro k hk
      have hk1 : ¬ k = kv.1 := fun he => hk (by simp [he])
      have hk2 : ¬ k ∈ rt.map Prod.fst := fun hm => hk (by simp [hm])
      rw [hsame k hk2, recordLookup_recordSet]
      simp [hk1]
    · intro k w hw u hu
      rw [recordLookup_cons] at hw
      by_cases hk : kv.1 = k
      · subst hk
        simp at hw
        subst hw
        have hu0u : u0 = u := by
          rw [hu0] at hu
          exact Option.some.inj hu
        rw [hsame kv.1 hk0nr, recordLookup_recordSet]
        simp [hsub kv.1 (by simp), hu0u]
      · simp only [hk, if_false] at hw
        refine hupd k w hw u ?_
        rw [recordLookup_recordSet]
        have : ¬ k = kv.1 := fun he => hk he.symm
        simp [this, hu]

theorem foldRecords_spec (op : Int → Int → Int) (rs : List ParamsRecord) :
    ∀ d : ParamsRecord,
    (∀ r ∈ rs, r.map Prod.fst = d.map Prod.fst) →
    (d.map Prod.fst).Nodup →
    ∃ m, rs.foldl (fun acc r => acc.bind (fun dd => foldRecord op dd r)) (some d) =
        some m ∧
      m.map Prod.fst = d.map Prod.fst ∧
      ∀ k u, recordLookup d k = some u →
        recordLookup m k =
          some ((rs.filterMap (fun r => recordLookup r k)).foldl op u) := by
  induction rs with
  | nil =>
    intro d _ _
    exact ⟨d, rfl, rfl, fun k u hu => by simpa using hu⟩
  | cons r0 rt ih =>
    intro d hkeys hnd
    have hr0 : r0.map Prod.fst = d.map Prod.fst := hkeys r0 (by simp)
    obtain ⟨d1, hfold1, hkeys1, -, hupd1⟩ :=
      foldRecord_spec op r0 d (fun k hk => hr0 ▸ hk) (hr0 ▸ hnd)
    obtain ⟨m, hfoldm, hkeysm, hlookm⟩ :=
      ih d1 (fun r hr => (hkeys r (by simp [hr])).trans hkeys1.symm)
        (hkeys1 ▸ hnd)
    refine ⟨m, ?_, hkeysm.trans hkeys1, ?_⟩
    · simpa [List.foldl_cons, hfold1] using hfoldm
    · intro k u hu
      have hkmem : k ∈ r0.map Prod.fst := by
        rw [hr0]
        by_contra hk
        rw [lookup_none_of_not_mem_keys d k hk] at hu
        exact Option.noConfusion hu
      obtain ⟨w0, hw0⟩ := exists_lookup_of_mem_keys r0 k hkmem
      have hd1 : recordLookup d1 k = some (op u w0) := hupd1 k w0 hw0 u hu
      rw [hlookm k (op u w0) hd1]
      simp [List.filterMap_cons, hw0, List.foldl_cons]

theorem foldl_min_le (ws : List Int) : ∀ u : Int,
    ws.foldl min u ≤ u ∧ ∀ w ∈ ws, ws.foldl min u ≤ w := by
  induction ws with
  | nil => exact fun u => ⟨le_refl u, by simp⟩
  | cons w wt ih =>
    intro u
    obtain ⟨h1, h2⟩ := ih (min u w)
    refine ⟨le_trans h1 (min_le_left u w), ?_⟩
    intro x hx
    rcases List.mem_cons.mp hx with rfl | hx2
    · exact le_trans h1 (min_le_right u x)
    · exact h2 x hx2

theorem foldl_min_mem (ws : List Int) : ∀ u : Int,
    ws.foldl min u = u ∨ ws.foldl min u ∈ ws := by
  induction ws with
  | nil => exact fun u => Or.inl rfl
  | cons w wt ih =>
    intro u
    rcases ih (min u w) with h | h
    · rcases min_choice u w with hm | hm
      · exact Or.inl (by rw [List.foldl_cons, h, hm])
      · exact Or.inr (by rw [List.foldl_cons, h, hm]; simp)
    · exact Or.inr (by simp [List.foldl_cons]; right; exact h)

theorem foldl_max_ge (ws : List Int) : ∀ u : Int,
    u ≤ ws.foldl max u ∧ ∀ w ∈ ws, w ≤ ws.foldl max u := by
  induction ws with
  | nil => exact fun u => ⟨le_refl u, by simp⟩
  | cons w wt ih =>
    intro u
    obtain ⟨h1, h2⟩ := ih (max u w)
    refine ⟨le_trans (le_max_left u w) h1, ?_⟩
    intro x hx
    rcases List.mem_cons.mp hx with rfl | hx2
    · exact le_trans (le_max_right u x) h1
    · exact h2 x hx2

theorem foldl_max_mem (ws : List Int) : ∀ u : Int,
    ws.foldl max u = u ∨ ws.foldl max u ∈ ws := by
  induction ws with
  | nil => exact fun u => Or.inl rfl
  | cons w wt ih =>
    intro u
    rcases ih (max u w) with h | h
    · rcases max_choice u w with hm | hm
      · exact Or.inl (by rw [List.foldl_cons, h, hm])
      · exact Or.inr (by rw [List.foldl_cons, h, hm]; simp)
    · exact Or.inr (by simp [List.foldl_cons]; right; exact h)

/-- C7: `min_max` fails on an empty catalog; on a non-empty catalog whose
records all carry the same parameter names (in particular the real CAD
catalog), it returns one minimum and one maximum per named parameter,
taken independently across all identifiers, preserving the parameter-name
ordering of the first record; on the synthetic 2-object catalog
`a: (p 1, q 5)`, `b: (p 3, q 2)` it returns min `(p 1, q 2)` and max
`(p 3, q 5)`. -/
theorem C7_min_max_correct (cat : List (String × ParamsRecord)) (i0 : String)
    (rec0 : ParamsRecord) (rest : List (String × ParamsRecord))
    (hcat : cat = (i0, rec0) :: rest)
    (hkeys : ∀ p ∈ cat, p.2.map Prod.fst = rec0.map Prod.fst)
    (hnd : (rec0.map Prod.fst).Nodup) :
    (min_max [] = Except.error RgbError.emptyDataset)
  ∧ (min_max [("a", [("p", 1), ("q", 5)]), ("b", [("p", 3), ("q", 2)])] =
      Except.ok ([("p", 1), ("q", 2)], [("p", 3), ("q", 5)]))
  ∧ (∃ mn mx, min_max cat = Except.ok (mn, mx)
      ∧ mn.map Prod.fst = rec0.map Prod.fst
      ∧ mx.map Prod.fst = rec0.map Prod.fst
      ∧ (∀ k v, recordLookup mn k = some v →
          (∀ p ∈ cat, ∀ w, recordLookup p.2 k = some w → v ≤ w) ∧
          (∃ p, p ∈ cat ∧ recordLookup p.2 k = some v))
      ∧ (∀ k v, recordLookup mx k = some v →
          (∀ p ∈ cat, ∀ w, recordLookup p.2 k = some w → w ≤ v) ∧
          (∃ p, p ∈ cat ∧ recordLookup p.2 k = some v))) := by
  subst hcat
  refine ⟨rfl, by rfl, ?_⟩
  have hrkeys : ∀ r ∈ ((i0, rec0) :: rest).map Prod.snd,
      r.map Prod.fst = rec0.map Prod.fst := by
    intro r hr
    obtain ⟨p, hp, rfl⟩ := List.mem_map.mp hr
    exact hkeys p hp
  obtain ⟨mn, hfmn, hkmn, hlmn⟩ :=
    foldRecords_spec min (((i0, rec0) :: rest).map Prod.snd) rec0 hrkeys hnd
  obtain ⟨mx, hfmx, hkmx, hlmx⟩ :=
    foldRecords_spec max (((i0, rec0) :: rest).map Prod.snd) rec0 hrkeys hnd
  refine ⟨mn, mx, ?_, hkmn, hkmx, ?_, ?_⟩
  · simp only [min_max]
    rw [hfmn, hfmx]
  · intro k v hv
    have hkmem : k ∈ rec0.map Prod.fst := by
      by_contra hk
      rw [lookup_none_of_not_mem_keys mn k (by rw [hkmn]; exact hk)] at hv
      exact Option.noConfusion hv
    obtain ⟨u, hu⟩ := exists_lookup_of_mem_keys rec0 k hkmem
    have hval := hlmn k u hu
    rw [hval] at hv
    have hveq := Option.some.inj hv
    constructor
    · intro p hp w hw
      have hwmem : w ∈ (((i0, rec0) :: rest).map Prod.snd).filterMap
          (fun r => recordLookup r k) :=
        List.mem_filterMap.mpr ⟨p.2, List.mem_map_of_mem Prod.snd hp, hw⟩
      rw [← hveq]
      exact (foldl_min_le _ u).2 w hwmem
    · rcases foldl_min_mem
          ((((i0, rec0) :: rest).map Prod.snd).filterMap (fun r => recordLookup r k))
          u with he | hm
      · refine ⟨(i0, rec0), by simp, ?_⟩
        rw [hu, ← hveq, he]
      · rw [← hveq]
        obtain ⟨r, hr, hrl⟩ := List.mem_filterMap.mp hm
        obtain ⟨p, hp, rfl⟩ := List.mem_map.mp hr
        exact ⟨p, hp, hrl⟩
  · intro k v hv
    have hkmem : k ∈ rec0.map Prod.fst := by
      by_contra hk
      rw [lookup_none_of_not_mem_keys mx k (by rw [hkmx]; exact hk)] at hv
      exact Option.noConfusion hv
    obtain ⟨u, hu⟩ := exists_lookup_of_mem_keys rec0 k hkmem
    have hval := hlmx k u hu
    rw [hval] at hv
    have hveq := Option.some.inj hv
    constructor
    · intro p hp w hw
      have hwmem : w ∈ (((i0, rec0) :: rest).map Prod.snd).filterMap
          (fun r => recordLookup r k) :=
        List.mem_filterMap.mpr ⟨p.2, List.mem_map_of_mem Prod.snd hp, hw⟩
      rw [← hveq]
      exact (foldl_max_ge _ u).2 w hwmem
    · rcases foldl_max_mem
          ((((i0, rec0) :: rest).map Prod.snd).filterMap (fun r => recordLookup r k))
          u with he | hm
      · refine ⟨(i0, rec0), by simp, ?_⟩
        rw [hu, ← hveq, he]
      · rw [← hveq]
        obtain ⟨r, hr, hrl⟩ := List.mem_filterMap.mp hm
        obtain ⟨p, hp, rfl⟩ := List.mem_map.mp hr
        exact ⟨p, hp, hrl⟩

/-- C7 witness: the statement applied to the synthetic 2-object catalog
of the claim. -/
theorem C7_min_max_correct_witness :
    ∃ mn mx,
      min_max [("a", [("p", 1), ("q", 5)]), ("b", [("p", 3), ("q", 2)])] =
        Except.ok (mn, mx)
      ∧ mn.map Prod.fst = [("p", (1 : Int)), ("q", 5)].map Prod.fst
      ∧ mx.map Prod.fst = [("p", (1 : Int)), ("q", 5)].map Prod.fst
      ∧ (∀ k v, recordLookup mn k = some v →
          (∀ p ∈ [("a", [("p", 1), ("q", 5)]), ("b", [("p", 3), ("q", 2)])],
            ∀ w, recordLookup p.2 k = some w → v ≤ w) ∧
          (∃ p, p ∈ [("a", [("p", 1), ("q", 5)]), ("b", [("p", 3), ("q", 2)])] ∧
            recordLookup p.2 k = some v))
      ∧ (∀ k v, recordLookup mx k = some v →
          (∀ p ∈ [("a", [("p", 1), ("q", 5)]), ("b", [("p", 3), ("q", 2)])],
            ∀ w, recordLookup p.2 k = some w → w ≤ v) ∧
          (∃ p, p ∈ [("a", [("p", 1), ("q", 5)]), ("b", [("p", 3), ("q", 2)])] ∧
            recordLookup p.2 k = some v)) :=
  (C7_min_max_correct [("a", [("p", 1), ("q", 5)]), ("b", [("p", 3), ("q", 2)])]
    "a" [("p", 1), ("q", 5)] [("b", [("p", 3), ("q", 2)])] rfl
    (by decide) (by decide)).2.2
